import Mathlib

/-!
A shallow embedding of the retro-cell single-writer concurrent container.

Source files embedded here: src/sync.rs (RefCount, Notifier), src/shared.rs
(Node, SharedState, the tag constants), src/reader.rs (Reader, BlockedReader,
Ref), src/writer.rs (RetroCell, InPlaceGuard, CongestedWriter), src/utils.rs
(CachePadded alignment).

Modelling choices:
* Machine words are Nat, reduced modulo 2 ^ 32 where u32 wrap matters.
* Heap addresses are Nat; address 0 plays the role of the null pointer and
  boxed node addresses are even, mirroring the low-bit tagging of the
  current word.  The heap is a total function from addresses to node
  contents; addresses that were never allocated hold arbitrary junk.
* The writer private state (garbage queue, pool) and the shared state live
  together in one CellState record.  The garbage queue is a list whose head
  is the queue front; the pool is a stack whose head is the stack top.
* Loops are fuel bounded.  Concurrent interference is made explicit where a
  claim depends on it: tryWrite takes the number of reader retains that
  land between the lock swap and the second count check, and waitUntilZero
  takes a schedule of reader releases observed by its drain loop.
-/

namespace Retro

/-- Modulus of the 32-bit atomic words (u32 arithmetic wraps modulo this). -/
def W32 : Nat := 4294967296

/-- WAITING bit of a RefCount word (sync.rs line 21, one shifted left 31). -/
def WAITING : Nat := 2147483648

/-- Count part of a RefCount word: the low 31 bits (sync.rs line 22 and its
uses).  For a word below 2 ^ 32 this is the value modulo 2 ^ 31. -/
def rcCount (w : Nat) : Nat := w % WAITING

/-- Waiting bit (bit 31) of a RefCount word. -/
def waitingBit (w : Nat) : Bool := decide (w / WAITING % 2 = 1)

/-- RefCount::retain (sync.rs line 33): fetch_add 1 on the full word. -/
def rcRetain (w : Nat) : Nat := (w + 1) % W32

/-- RefCount::release (sync.rs line 40): fetch_sub 1 on the full word. -/
def rcRelease (w : Nat) : Nat := (w + (W32 - 1)) % W32

/-- Wake condition of RefCount::release (sync.rs line 45): the word before
the decrement equals 1 with the WAITING bit set. -/
def releaseWake (w : Nat) : Bool := decide (w = WAITING + 1)

/-- Successful CAS of sync.rs line 68: set the WAITING bit. -/
def setWaiting (w : Nat) : Nat := if waitingBit w then w else w + WAITING

/-- Environment of the drain loop: readers drop live Refs.  A release only
happens while the count part is nonzero, because every release comes from a
live Ref guard. -/
def envReleases : Nat → Nat → Nat
  | 0, w => w
  | n + 1, w => if rcCount w = 0 then w else envReleases n (rcRelease w)

/-- RefCount::wait_until_zero (sync.rs lines 53-101), fuel bounded.  At the
top of each loop iteration the environment performs the scheduled number of
reader releases; then the writer loads the word, returns when the count part
is zero, otherwise sets the WAITING bit (the CAS of line 68, which cannot
fail between the explicit environment points), re-checks the count, and
spins or sleeps into the next iteration. -/
def waitUntilZero : Nat → List Nat → Nat → Option Nat
  | 0, _, _ => none
  | fuel + 1, sched, w0 =>
    let w := envReleases (sched.headD 0) w0
    if rcCount w = 0 then some w
    else
      let w1 := setWaiting w
      if rcCount w1 = 0 then some w1
      else waitUntilZero fuel sched.tail w1

/-- Node (shared.rs lines 11-15): the value and its RefCount word. -/
structure Node (T : Type) where
  data : T
  rc : Nat

/-- Whole-cell state: the SharedState fields (shared.rs lines 32-42)
together with the writer private garbage queue and pool (writer.rs lines
134-138).  Garbage and pool hold addresses; a pooled storage keeps its
address until it is recycled.  nextAddr is the next fresh box address. -/
@[ext]
structure CellState (T : Type) where
  heap : Nat → Node T
  current : Nat
  previous : Nat
  notifier : Nat
  garbage : List Nat
  pool : List Nat
  nextAddr : Nat

variable {T R : Type}

/-- Pointwise heap update. -/
def hupd (h : Nat → Node T) (a : Nat) (n : Node T) : Nat → Node T :=
  fun x => if x = a then n else h x

/-- Pointer part of a tagged word (val AND PTR_MASK, shared.rs line 8). -/
def ptrPart (v : Nat) : Nat := 2 * (v / 2)

/-- Tagged word with the lock bit set (val OR LOCKED, shared.rs line 9). -/
def lockWord (v : Nat) : Nat := 2 * (v / 2) + 1

/-- Notifier::advance_and_wake (sync.rs lines 151-156): u32 fetch_add 1,
then wake all waiters (the wake itself has no state content here). -/
def advanceNotifier (s : CellState T) : CellState T :=
  { s with notifier := (s.notifier + 1) % W32 }

/-- Reader retain on the node at address p (RefCount::retain through a Ref
acquisition). -/
def retainAt (s : CellState T) (p : Nat) : CellState T :=
  { s with heap := hupd s.heap p { data := (s.heap p).data, rc := rcRetain (s.heap p).rc } }

/-- Ref::drop (reader.rs lines 22-27): release on the node at address p. -/
def releaseAt (s : CellState T) (p : Nat) : CellState T :=
  { s with heap := hupd s.heap p { data := (s.heap p).data, rc := rcRelease (s.heap p).rc } }

/-- k reader retains landing on the node at address p. -/
def retainN (p : Nat) : Nat → CellState T → CellState T
  | 0, s => s
  | k + 1, s => retainN p k (retainAt s p)

/-- RetroCell::new (writer.rs lines 146-172): box the initial node (the box
gets address 2), publish it in current, previous starts null, both queues
start empty.  The alignment assertion of line 150 is the subject of
nodeAlign below. -/
def newCell (v : T) : CellState T :=
  { heap := fun _ => { data := v, rc := 0 }
    current := 2
    previous := 0
    notifier := 0
    garbage := []
    pool := []
    nextAddr := 4 }

/-- Loop of RetroCell::collect_garbage (writer.rs lines 175-190): while the
queue has more than one entry and the front node count reads zero, pop the
front and push its storage onto the pool. -/
def gcLoop (h : Nat → Node T) : List Nat → List Nat → List Nat × List Nat
  | [], pl => ([], pl)
  | [p], pl => ([p], pl)
  | p :: q :: rest, pl =>
    if rcCount (h p).rc = 0 then gcLoop h (q :: rest) (p :: pl)
    else (p :: q :: rest, pl)

/-- RetroCell::collect_garbage (writer.rs lines 175-190). -/
def collectGarbage (s : CellState T) : CellState T :=
  { s with garbage := (gcLoop s.heap s.garbage s.pool).1
           pool := (gcLoop s.heap s.garbage s.pool).2 }

/-- Outcome of Reader::try_read (reader.rs lines 32-35): success carries the
retained node address and the updated state; blocked maps to the
BlockedReader handle (the state is unchanged there); spin is fuel
exhaustion of the validate-retry loop. -/
inductive ReadOutcome (T : Type)
  | success : Nat → CellState T → ReadOutcome T
  | blocked : ReadOutcome T
  | spin : ReadOutcome T

/-- Reader::try_read (reader.rs lines 105-131), fuel bounded: load current,
route to blocked when the tag bit is set, otherwise retain optimistically,
validate that current did not change, and retry after a release on
validation failure. -/
def tryReadLoop : Nat → CellState T → ReadOutcome T
  | 0, _ => ReadOutcome.spin
  | fuel + 1, s =>
    let v := s.current
    if v % 2 = 1 then ReadOutcome.blocked
    else
      let s1 := retainAt s (ptrPart v)
      if s1.current = v then ReadOutcome.success (ptrPart v) s1
      else tryReadLoop fuel (releaseAt s1 (ptrPart v))

/-- Value seen through the Ref returned by a successful try_read. -/
def readVal (fuel : Nat) (s : CellState T) : Option T :=
  match tryReadLoop fuel s with
  | ReadOutcome.success p s1 => some ((s1.heap p).data)
  | _ => none

/-- Whether try_read returns the blocked outcome. -/
def readBlocked (fuel : Nat) (s : CellState T) : Bool :=
  match tryReadLoop fuel s with
  | ReadOutcome.blocked => true
  | _ => false

/-- Reader::read_retro (reader.rs lines 148-156) and the identical
BlockedReader::read_retro (reader.rs lines 82-90): acquire-load previous; if
null return none, otherwise retain the referenced node and return a Ref to
it. -/
def readRetro (s : CellState T) : Option Nat × CellState T :=
  if s.previous = 0 then (none, s)
  else (some s.previous, retainAt s s.previous)

/-- Value seen through the Ref returned by read_retro. -/
def retroVal (s : CellState T) : Option T :=
  match readRetro s with
  | (some p, s1) => some ((s1.heap p).data)
  | (none, _) => none

/-- BlockedReader::wait (reader.rs lines 48-79), fuel bounded: when the tag
bit is clear, retain and validate exactly like try_read; when it is set,
read the notifier ticket, re-check current and sleep on the notifier (one
sleep consumes one unit of fuel and, sequentially, changes nothing). -/
def waitLoop : Nat → CellState T → Option (Nat × CellState T)
  | 0, _ => none
  | fuel + 1, s =>
    let v := s.current
    if v % 2 = 0 then
      let s1 := retainAt s (ptrPart v)
      if s1.current = v then some (ptrPart v, s1)
      else waitLoop fuel (releaseAt s1 (ptrPart v))
    else
      waitLoop fuel s

/-- Value seen through the Ref returned by BlockedReader::wait. -/
def waitVal (fuel : Nat) (s : CellState T) : Option T :=
  match waitLoop fuel s with
  | some r => some ((r.2.heap r.1).data)
  | none => none

/-- Outcome of RetroCell::try_write (writer.rs lines 126-129): inPlace
carries the locked_val field of the guard as well as the state, congested
carries the state of the CongestedWriter. -/
inductive WriteRes (T : Type)
  | inPlace : Nat → CellState T → WriteRes T
  | congested : CellState T → WriteRes T

/-- Whether a write outcome is the in-place one. -/
def WriteRes.isInPlace : WriteRes T → Bool
  | WriteRes.inPlace _ _ => true
  | WriteRes.congested _ => false

/-- Cell state carried by either write outcome. -/
def WriteRes.state : WriteRes T → CellState T
  | WriteRes.inPlace _ s => s
  | WriteRes.congested s => s

/-- locked_val of an InPlace outcome (0 for a Congested one). -/
def WriteRes.lockedVal : WriteRes T → Nat
  | WriteRes.inPlace lv _ => lv
  | WriteRes.congested _ => 0

/-- RetroCell::try_write (writer.rs lines 195-223).  k is the number of
reader retains that land on the current node inside the race window between
the lock swap and the second count check; a sequential call passes 0. -/
def tryWrite (s0 : CellState T) (k : Nat) : WriteRes T :=
  let s := collectGarbage s0
  let v := s.current
  let p := ptrPart v
  if rcCount (s.heap p).rc = 0 then
    let s2 := retainN p k { s with current := lockWord v }
    if rcCount ((s2.heap p).rc) = 0 then WriteRes.inPlace (lockWord v) s2
    else WriteRes.congested (advanceNotifier { s2 with current := v })
  else WriteRes.congested s

/-- Write through the mutable dereference of an InPlaceGuard (writer.rs
lines 29-35): the target is the node at the pointer part of locked_val. -/
def guardSet (lv : Nat) (w : T) (s : CellState T) : CellState T :=
  { s with heap := hupd s.heap (ptrPart lv) { data := w, rc := (s.heap (ptrPart lv)).rc } }

/-- InPlaceGuard::drop (writer.rs lines 37-48): release-store locked_val AND
PTR_MASK into current, then advance the notifier and wake blocked readers. -/
def guardDrop (lv : Nat) (s : CellState T) : CellState T :=
  advanceNotifier { s with current := ptrPart lv }

/-- Publication half of CongestedWriter::perform_cow (writer.rs lines
102-119): apply the closure to the data of the new node at address q, swap q
into current recovering the old word, push the superseded node onto the
garbage queue (step 5), store it into previous (step 6), then advance the
notifier (step 7). -/
def performCowPublish (s : CellState T) (q : Nat) (f : T → T × R) : R × CellState T :=
  let fd := f ((s.heap q).data)
  let s2 := { s with heap := hupd s.heap q { data := fd.1, rc := (s.heap q).rc } }
  let oldPtr := ptrPart s2.current
  (fd.2,
    advanceNotifier
      { s2 with current := q
                garbage := s2.garbage ++ [oldPtr]
                previous := oldPtr })

/-- CongestedWriter::perform_cow (writer.rs lines 81-120): clone the current
data, obtain storage for the new node (pop the pool, overwrite its data with
the clone and reset its RefCount, or box a fresh node), then publish. -/
def performCow (s : CellState T) (f : T → T × R) : R × CellState T :=
  let newData := (s.heap (ptrPart s.current)).data
  match s.pool with
  | q :: rest =>
    performCowPublish
      { s with pool := rest, heap := hupd s.heap q { data := newData, rc := 0 } } q f
  | [] =>
    performCowPublish
      { s with heap := hupd s.heap s.nextAddr { data := newData, rc := 0 }
               nextAddr := s.nextAddr + 2 }
      s.nextAddr f

/-- RetroCell::write_cow (writer.rs lines 228-235): collect garbage, then
perform the copy-on-write through a CongestedWriter handle. -/
def writeCow (s : CellState T) (f : T → T × R) : R × CellState T :=
  performCow (collectGarbage s) f

/-- CongestedWriter::force_in_place (writer.rs lines 58-79): swap the locked
word into current, then drain readers with wait_until_zero on the current
node; the returned guard keeps the unlocked curr_val as its locked_val field
(line 77). -/
def forceInPlace (fuel : Nat) (sched : List Nat) (s : CellState T) :
    Option (Nat × CellState T) :=
  let v := s.current
  let s1 := { s with current := lockWord v }
  let p := ptrPart v
  match waitUntilZero fuel sched ((s1.heap p).rc) with
  | none => none
  | some w => some (v, { s1 with heap := hupd s1.heap p { data := (s1.heap p).data, rc := w } })

/-- RetroCell::write_in_place (writer.rs lines 240-243). -/
def writeInPlace (fuel : Nat) (sched : List Nat) (s : CellState T) :
    Option (Nat × CellState T) :=
  forceInPlace fuel sched (collectGarbage s)

/-- Alignment of CachePadded (utils.rs lines 33-36): the align 64 repr
attribute raises the struct alignment to at least 64; by the Rust layout
rules the alignment is the maximum of 64 and the alignment of the wrapped
field. -/
def cachePaddedAlign (a : Nat) : Nat := max 64 a

/-- Alignment of AtomicU32, the single field of RefCount (sync.rs line 18). -/
def atomicU32Align : Nat := 4

/-- Alignment of Node (shared.rs lines 11-15): the maximum of the alignments
of its two fields, the cell around T (same alignment as T) and the
CachePadded RefCount. -/
def nodeAlign (alignT : Nat) : Nat := max alignT (cachePaddedAlign atomicU32Align)

/-- Invariant 3 of the spec: when previous is non-null it designates the
tail of the writer garbage queue. -/
def PrevTail (s : CellState T) : Prop :=
  s.previous ≠ 0 → s.garbage.getLast? = some s.previous

/-- Address sanity maintained by the real allocator: boxed node addresses
are even (alignment at least 2), so storages reached through the pool, the
garbage queue or a fresh box never collide with the tag bit. -/
def Aligned (s : CellState T) : Prop :=
  2 ∣ s.nextAddr ∧ (∀ a ∈ s.pool, 2 ∣ a) ∧ (∀ a ∈ s.garbage, 2 ∣ a)

@[simp] theorem hupd_same (h : Nat → Node T) (a : Nat) (n : Node T) :
    hupd h a n a = n := by
  simp [hupd]

theorem hupd_ne (h : Nat → Node T) {a b : Nat} (n : Node T) (hne : b ≠ a) :
    hupd h a n b = h b := by
  simp [hupd, hne]

@[simp] theorem cg_heap (s : CellState T) : (collectGarbage s).heap = s.heap := rfl

@[simp] theorem cg_current (s : CellState T) : (collectGarbage s).current = s.current := rfl

@[simp] theorem cg_previous (s : CellState T) : (collectGarbage s).previous = s.previous := rfl

@[simp] theorem cg_notifier (s : CellState T) : (collectGarbage s).notifier = s.notifier := rfl

@[simp] theorem cg_nextAddr (s : CellState T) : (collectGarbage s).nextAddr = s.nextAddr := rfl

@[simp] theorem retainAt_current (s : CellState T) (p : Nat) :
    (retainAt s p).current = s.current := rfl

@[simp] theorem retainAt_previous (s : CellState T) (p : Nat) :
    (retainAt s p).previous = s.previous := rfl

@[simp] theorem retainAt_notifier (s : CellState T) (p : Nat) :
    (retainAt s p).notifier = s.notifier := rfl

@[simp] theorem retainAt_garbage (s : CellState T) (p : Nat) :
    (retainAt s p).garbage = s.garbage := rfl

@[simp] theorem retainAt_pool (s : CellState T) (p : Nat) :
    (retainAt s p).pool = s.pool := rfl

@[simp] theorem retainAt_nextAddr (s : CellState T) (p : Nat) :
    (retainAt s p).nextAddr = s.nextAddr := rfl

@[simp] theorem retainAt_heap_same (s : CellState T) (p : Nat) :
    (retainAt s p).heap p = { data := (s.heap p).data, rc := rcRetain (s.heap p).rc } := by
  simp [retainAt]

theorem retainAt_heap_ne (s : CellState T) {p q : Nat} (hne : q ≠ p) :
    (retainAt s p).heap q = s.heap q := by
  simp [retainAt, hupd_ne _ _ hne]

theorem collectGarbage_nil {s : CellState T} (h : s.garbage = []) : collectGarbage s = s := by
  obtain ⟨hp, c, pr, n, g, pl, na⟩ := s
  simp only at h
  subst h
  rfl

/-- One sequential iteration of try_read on an unlocked cell succeeds,
retaining the current node. -/
theorem tryReadLoop_success (s : CellState T) (h : s.current % 2 = 0) :
    tryReadLoop 1 s =
      ReadOutcome.success (ptrPart s.current) (retainAt s (ptrPart s.current)) := by
  unfold tryReadLoop
  simp [h]

/-- Value returned by a sequential try_read on an unlocked cell. -/
theorem readVal_succ (s : CellState T) (h : s.current % 2 = 0) :
    readVal 1 s = some ((s.heap (ptrPart s.current)).data) := by
  unfold readVal
  rw [tryReadLoop_success s h]
  simp

theorem ptrPart_even (v : Nat) : ptrPart v % 2 = 0 := by
  unfold ptrPart
  omega

theorem ptrPart_idem (v : Nat) : ptrPart (ptrPart v) = ptrPart v := by
  unfold ptrPart
  omega

theorem guardSet_data (lv : Nat) (w : T) (s : CellState T) :
    ((guardSet lv w s).heap (ptrPart lv)).data = w := by
  simp [guardSet, hupd]

/-- Reading right after a guard drop observes the data of the node the
guard owned. -/
theorem readVal_guardDrop (lv : Nat) (s : CellState T) :
    readVal 1 (guardDrop lv s) = some ((s.heap (ptrPart lv)).data) := by
  rw [readVal_succ _ (by exact ptrPart_even lv)]
  rw [show (guardDrop lv s).current = ptrPart lv from rfl, ptrPart_idem]
  rfl

/-- A read retains a node but does not change the value the next read
observes. -/
theorem readVal_retainAt_eq (s : CellState T) (q : Nat) (h : s.current % 2 = 0) :
    readVal 1 (retainAt s q) = readVal 1 s := by
  rw [readVal_succ _ h, readVal_succ _ (show (retainAt s q).current % 2 = 0 from h)]
  rw [show (retainAt s q).current = s.current from rfl]
  by_cases hq : ptrPart s.current = q
  · rw [hq]
    simp
  · rw [retainAt_heap_ne s hq]

/-- try_write on a cell whose current node has a zero reader count, without
concurrent interference, takes the in-place path. -/
theorem tryWrite_quiescent (s : CellState T)
    (h : rcCount ((s.heap (ptrPart s.current)).rc) = 0) :
    tryWrite s 0 =
      WriteRes.inPlace (lockWord s.current)
        { collectGarbage s with current := lockWord s.current } := by
  unfold tryWrite
  simp only [cg_current, cg_heap, retainN]
  rw [if_pos h, if_pos h]

theorem gcLoop_getLast (h : Nat → Node T) :
    ∀ (g pl : List Nat), ((gcLoop h g pl).1).getLast? = g.getLast? := by
  intro g
  induction g with
  | nil => intro pl; rfl
  | cons p tail ih =>
    intro pl
    cases tail with
    | nil => rfl
    | cons q rest =>
      simp only [gcLoop]
      by_cases hc : rcCount (h p).rc = 0
      · rw [if_pos hc, ih]
        simp [List.getLast?_cons_cons]
      · rw [if_neg hc]

theorem gcLoop_ne_nil (h : Nat → Node T) :
    ∀ (g pl : List Nat), g ≠ [] → (gcLoop h g pl).1 ≠ [] := by
  intro g
  induction g with
  | nil => intro pl hg; exact absurd rfl hg
  | cons p tail ih =>
    intro pl hg
    cases tail with
    | nil => simp [gcLoop]
    | cons q rest =>
      simp only [gcLoop]
      by_cases hc : rcCount (h p).rc = 0
      · rw [if_pos hc]
        exact ih _ (by simp)
      · rw [if_neg hc]
        simp

theorem gcLoop_pool_mem (h : Nat → Node T) :
    ∀ (g pl : List Nat) (a : Nat), a ∈ (gcLoop h g pl).2 → a ∈ g ∨ a ∈ pl := by
  intro g
  induction g with
  | nil => intro pl a ha; exact Or.inr ha
  | cons p tail ih =>
    intro pl a ha
    cases tail with
    | nil => exact Or.inr ha
    | cons q rest =>
      by_cases hc : rcCount (h p).rc = 0
      · simp only [gcLoop, if_pos hc] at ha
        rcases ih _ a ha with h1 | h2
        · exact Or.inl (List.mem_cons_of_mem _ h1)
        · rcases List.mem_cons.mp h2 with rfl | h3
          · exact Or.inl (List.mem_cons_self a _)
          · exact Or.inr h3
      · simp only [gcLoop, if_neg hc] at ha
        exact Or.inr ha

@[simp] theorem advanceNotifier_previous (s : CellState T) :
    (advanceNotifier s).previous = s.previous := rfl

@[simp] theorem advanceNotifier_garbage (s : CellState T) :
    (advanceNotifier s).garbage = s.garbage := rfl

@[simp] theorem advanceNotifier_current (s : CellState T) :
    (advanceNotifier s).current = s.current := rfl

@[simp] theorem advanceNotifier_heap (s : CellState T) :
    (advanceNotifier s).heap = s.heap := rfl

@[simp] theorem advanceNotifier_pool (s : CellState T) :
    (advanceNotifier s).pool = s.pool := rfl

@[simp] theorem releaseAt_current (s : CellState T) (p : Nat) :
    (releaseAt s p).current = s.current := rfl

@[simp] theorem releaseAt_previous (s : CellState T) (p : Nat) :
    (releaseAt s p).previous = s.previous := rfl

@[simp] theorem releaseAt_garbage (s : CellState T) (p : Nat) :
    (releaseAt s p).garbage = s.garbage := rfl

@[simp] theorem releaseAt_pool (s : CellState T) (p : Nat) :
    (releaseAt s p).pool = s.pool := rfl

theorem retainN_fields (p k : Nat) (s : CellState T) :
    (retainN p k s).previous = s.previous ∧ (retainN p k s).garbage = s.garbage ∧
    (retainN p k s).current = s.current ∧ (retainN p k s).notifier = s.notifier ∧
    (retainN p k s).pool = s.pool ∧ (retainN p k s).nextAddr = s.nextAddr := by
  induction k generalizing s with
  | zero => exact ⟨rfl, rfl, rfl, rfl, rfl, rfl⟩
  | succ k ih => simpa [retainN] using ih (retainAt s p)

theorem PrevTail_of_eq {s s1 : CellState T} (hp : s1.previous = s.previous)
    (hg : s1.garbage = s.garbage) (h : PrevTail s) : PrevTail s1 := by
  intro hne
  rw [hp] at hne
  rw [hg, hp]
  exact h hne

theorem collectGarbage_eq_self {s : CellState T}
    (h : gcLoop s.heap s.garbage s.pool = (s.garbage, s.pool)) : collectGarbage s = s := by
  obtain ⟨hp, c, pr, n, g, pl, na⟩ := s
  simp only at h
  simp [collectGarbage, h]

/-- C7: collect_garbage pops the front node and pushes its storage onto the
pool exactly when the garbage queue has more than one entry and the front
node count reads zero; when the queue is empty or a singleton, or the front
count is nonzero, it changes nothing; consequently a non-empty garbage
queue stays non-empty. -/
theorem c7_collect_garbage_keeps_last (s : CellState T) :
    (∀ p rest, s.garbage = p :: rest → rest ≠ [] → rcCount ((s.heap p).rc) = 0 →
      collectGarbage s = collectGarbage { s with garbage := rest, pool := p :: s.pool }) ∧
    (s.garbage.length ≤ 1 → collectGarbage s = s) ∧
    (∀ p, s.garbage.head? = some p → rcCount ((s.heap p).rc) ≠ 0 → collectGarbage s = s) ∧
    (s.garbage ≠ [] → (collectGarbage s).garbage ≠ []) := by
  refine ⟨?_, ?_, ?_, ?_⟩
  · intro p rest hg hrest hc
    cases rest with
    | nil => exact absurd rfl hrest
    | cons q rest2 =>
      unfold collectGarbage
      rw [hg]
      simp only [gcLoop, if_pos hc]
  · intro hlen
    rcases hg : s.garbage with _ | ⟨p, _ | ⟨q, rest⟩⟩
    · exact collectGarbage_nil hg
    · exact collectGarbage_eq_self (by rw [hg]; simp [gcLoop])
    · rw [hg] at hlen
      simp at hlen
  · intro p hhead hc
    rcases hg : s.garbage with _ | ⟨p0, _ | ⟨q, rest⟩⟩
    · exact collectGarbage_nil hg
    · exact collectGarbage_eq_self (by rw [hg]; simp [gcLoop])
    · rw [hg] at hhead
      simp only [List.head?_cons, Option.some.injEq] at hhead
      subst hhead
      exact collectGarbage_eq_self (by rw [hg]; simp only [gcLoop, if_neg hc])
  · intro hne
    exact gcLoop_ne_nil s.heap s.garbage s.pool hne

/-- Witness for C7: a two-entry garbage queue with a drained front node is
popped into the pool, and the queue stays non-empty. -/
theorem c7_collect_garbage_witness :
    (collectGarbage ({ newCell (0 : Nat) with garbage := [6, 4] }) =
      collectGarbage ({ newCell (0 : Nat) with garbage := [4], pool := [6] })) ∧
    (collectGarbage ({ newCell (0 : Nat) with garbage := [6, 4] } : CellState Nat)).garbage ≠ [] :=
  ⟨(c7_collect_garbage_keeps_last ({ newCell (0 : Nat) with garbage := [6, 4] })).1 6 [4]
      rfl (by decide) (by decide),
    (c7_collect_garbage_keeps_last ({ newCell (0 : Nat) with garbage := [6, 4] })).2.2.2
      (by decide)⟩

theorem performCowPublish_snd_fields (s : CellState T) (q : Nat) (f : T → T × R) :
    (performCowPublish s q f).2.previous = ptrPart s.current ∧
    (performCowPublish s q f).2.garbage = s.garbage ++ [ptrPart s.current] ∧
    (performCowPublish s q f).2.current = q := by
  exact ⟨rfl, rfl, rfl⟩

theorem performCow_snd_fields (s : CellState T) (f : T → T × R) :
    (performCow s f).2.previous = ptrPart s.current ∧
    (performCow s f).2.garbage = s.garbage ++ [ptrPart s.current] := by
  unfold performCow
  cases hp : s.pool with
  | nil => exact ⟨rfl, rfl⟩
  | cons q rest => exact ⟨rfl, rfl⟩

theorem tryWrite_state_fields (s : CellState T) (k : Nat) :
    ((tryWrite s k).state).previous = s.previous ∧
    ((tryWrite s k).state).garbage = (collectGarbage s).garbage := by
  simp only [tryWrite]
  split
  · split
    · simp only [WriteRes.state]
      have hf := retainN_fields (ptrPart (collectGarbage s).current) k
        { collectGarbage s with current := lockWord (collectGarbage s).current }
      exact ⟨hf.1, hf.2.1⟩
    · simp only [WriteRes.state, advanceNotifier_previous, advanceNotifier_garbage]
      have hf := retainN_fields (ptrPart (collectGarbage s).current) k
        { collectGarbage s with current := lockWord (collectGarbage s).current }
      exact ⟨hf.1, hf.2.1⟩
  · exact ⟨rfl, rfl⟩

theorem forceInPlace_snd_fields (fuel : Nat) (sched : List Nat) (s : CellState T)
    (r : Nat × CellState T) (h : forceInPlace fuel sched s = some r) :
    r.2.previous = s.previous ∧ r.2.garbage = s.garbage := by
  simp only [forceInPlace] at h
  split at h
  · cases h
  · cases h
    exact ⟨rfl, rfl⟩

theorem tryReadLoop_prevtail :
    ∀ (fuel : Nat) (s : CellState T) (p : Nat) (s1 : CellState T),
      tryReadLoop fuel s = ReadOutcome.success p s1 → PrevTail s → PrevTail s1 := by
  intro fuel
  induction fuel with
  | zero =>
    intro s p s1 h hp
    simp [tryReadLoop] at h
  | succ fuel ih =>
    intro s p s1 h hp
    simp only [tryReadLoop] at h
    by_cases h1 : s.current % 2 = 1
    · rw [if_pos h1] at h
      cases h
    · rw [if_neg h1] at h
      by_cases h2 : (retainAt s (ptrPart s.current)).current = s.current
      · rw [if_pos h2] at h
        cases h
        exact PrevTail_of_eq rfl rfl hp
      · rw [if_neg h2] at h
        exact ih _ p s1 h (PrevTail_of_eq rfl rfl hp)

theorem waitLoop_prevtail :
    ∀ (fuel : Nat) (s : CellState T) (r : Nat × CellState T),
      waitLoop fuel s = some r → PrevTail s → PrevTail r.2 := by
  intro fuel
  induction fuel with
  | zero =>
    intro s r h hp
    simp [waitLoop] at h
  | succ fuel ih =>
    intro s r h hp
    simp only [waitLoop] at h
    by_cases h1 : s.current % 2 = 0
    · rw [if_pos h1] at h
      by_cases h2 : (retainAt s (ptrPart s.current)).current = s.current
      · rw [if_pos h2] at h
        cases h
        exact PrevTail_of_eq rfl rfl hp
      · rw [if_neg h2] at h
        exact ih _ r h (PrevTail_of_eq rfl rfl hp)
    · rw [if_neg h1] at h
      exact ih _ r h hp

/-- C4: when previous is non-null it equals the tail of the writer garbage
queue.  The invariant holds after construction and is preserved by every
operation of the cell; perform_cow (re)establishes it unconditionally, and
because the old node is appended to the garbage queue before it is stored
into previous, in the post state previous is a member of the garbage queue
and is exactly its tail. -/
theorem c4_previous_is_garbage_tail (T R : Type) :
    (∀ v : T, PrevTail (newCell v)) ∧
    (∀ s : CellState T, PrevTail s → PrevTail (collectGarbage s)) ∧
    (∀ (s : CellState T) (k : Nat), PrevTail s → PrevTail ((tryWrite s k).state)) ∧
    (∀ (s : CellState T) (f : T → T × R),
      ((performCow s f).2).garbage.getLast? = some ((performCow s f).2).previous ∧
      ((performCow s f).2).previous ∈ ((performCow s f).2).garbage ∧
      PrevTail ((performCow s f).2)) ∧
    (∀ (s : CellState T) (f : T → T × R), PrevTail ((writeCow s f).2)) ∧
    (∀ (fuel : Nat) (sched : List Nat) (s : CellState T) (r : Nat × CellState T),
      forceInPlace fuel sched s = some r → PrevTail s → PrevTail r.2) ∧
    (∀ (fuel : Nat) (sched : List Nat) (s : CellState T) (r : Nat × CellState T),
      writeInPlace fuel sched s = some r → PrevTail s → PrevTail r.2) ∧
    (∀ (lv : Nat) (w : T) (s : CellState T), PrevTail s → PrevTail (guardSet lv w s)) ∧
    (∀ (lv : Nat) (s : CellState T), PrevTail s → PrevTail (guardDrop lv s)) ∧
    (∀ (s : CellState T) (p : Nat), PrevTail s → PrevTail (retainAt s p)) ∧
    (∀ (s : CellState T) (p : Nat), PrevTail s → PrevTail (releaseAt s p)) ∧
    (∀ s : CellState T, PrevTail s → PrevTail (readRetro s).2) ∧
    (∀ (fuel : Nat) (s : CellState T) (p : Nat) (s1 : CellState T),
      tryReadLoop fuel s = ReadOutcome.success p s1 → PrevTail s → PrevTail s1) ∧
    (∀ (fuel : Nat) (s : CellState T) (r : Nat × CellState T),
      waitLoop fuel s = some r → PrevTail s → PrevTail r.2) := by
  have hcg : ∀ s : CellState T, PrevTail s → PrevTail (collectGarbage s) := by
    intro s h hne
    show ((gcLoop s.heap s.garbage s.pool).1).getLast? = some s.previous
    rw [gcLoop_getLast]
    exact h hne
  have hcow : ∀ (s : CellState T) (f : T → T × R),
      ((performCow s f).2).garbage.getLast? = some ((performCow s f).2).previous ∧
      ((performCow s f).2).previous ∈ ((performCow s f).2).garbage ∧
      PrevTail ((performCow s f).2) := by
    intro s f
    obtain ⟨h1, h2⟩ := performCow_snd_fields s f
    rw [h1, h2]
    refine ⟨List.getLast?_concat _, ?_, ?_⟩
    · simp
    · intro _
      rw [h1, h2]
      exact List.getLast?_concat _
  refine ⟨?_, hcg, ?_, hcow, ?_, ?_, ?_, ?_, ?_, ?_, ?_, ?_, tryReadLoop_prevtail, waitLoop_prevtail⟩
  · intro v hne
    exact absurd rfl hne
  · intro s k h
    obtain ⟨h1, h2⟩ := tryWrite_state_fields s k
    exact PrevTail_of_eq (h1.trans (cg_previous s).symm) h2 (hcg s h)
  · intro s f
    exact (hcow (collectGarbage s) f).2.2
  · intro fuel sched s r h hp
    obtain ⟨h1, h2⟩ := forceInPlace_snd_fields fuel sched s r h
    exact PrevTail_of_eq h1 h2 hp
  · intro fuel sched s r h hp
    obtain ⟨h1, h2⟩ := forceInPlace_snd_fields fuel sched (collectGarbage s) r h
    exact PrevTail_of_eq h1 h2 (hcg s hp)
  · intro lv w s hp
    exact PrevTail_of_eq rfl rfl hp
  · intro lv s hp
    exact PrevTail_of_eq rfl rfl hp
  · intro s p hp
    exact PrevTail_of_eq rfl rfl hp
  · intro s p hp
    exact PrevTail_of_eq rfl rfl hp
  · intro s hp
    unfold readRetro
    by_cases h0 : s.previous = 0
    · rw [if_pos h0]
      exact hp
    · rw [if_neg h0]
      exact PrevTail_of_eq rfl rfl hp

/-- Witness for C4: the preservation conjuncts applied at a state whose
previous pointer designates the single garbage entry. -/
theorem c4_previous_witness :
    PrevTail (collectGarbage ({ newCell (0 : Nat) with previous := 2, garbage := [2] })) ∧
    PrevTail ((tryWrite ({ newCell (0 : Nat) with previous := 2, garbage := [2] }) 0).state) :=
  ⟨(c4_previous_is_garbage_tail Nat Unit).2.1 _ (by intro h; decide),
    (c4_previous_is_garbage_tail Nat Unit).2.2.1 _ 0 (by intro h; decide)⟩

theorem ptrPart_of_even {v : Nat} (h : v % 2 = 0) : ptrPart v = v := by
  unfold ptrPart
  omega

theorem performCowPublish_fst (s : CellState T) (q : Nat) (f : T → T × R) :
    (performCowPublish s q f).1 = (f ((s.heap q).data)).2 := rfl

@[simp] theorem performCowPublish_current (s : CellState T) (q : Nat) (f : T → T × R) :
    (performCowPublish s q f).2.current = q := rfl

theorem performCowPublish_heap_q (s : CellState T) (q : Nat) (f : T → T × R) :
    ((performCowPublish s q f).2.heap q).data = (f ((s.heap q).data)).1 := by
  show ((hupd s.heap q
      { data := (f ((s.heap q).data)).1, rc := (s.heap q).rc }) q).data = _
  rw [hupd_same]

theorem performCowPublish_heap_ne (s : CellState T) (q a : Nat) (f : T → T × R)
    (hne : a ≠ q) : (performCowPublish s q f).2.heap a = s.heap a := by
  show (hupd s.heap q
      { data := (f ((s.heap q).data)).1, rc := (s.heap q).rc }) a = _
  rw [hupd_ne _ _ hne]

/-- Behaviour of perform_cow on any state with sane (even) storage
addresses: it returns the second component of the closure result, publishes
a node holding the first component applied to the old current data, and the
published current word is untagged. -/
theorem performCow_spec (s : CellState T) (f : T → T × R)
    (hnext : 2 ∣ s.nextAddr) (hpool : ∀ a ∈ s.pool, 2 ∣ a) :
    (performCow s f).1 = (f ((s.heap (ptrPart s.current)).data)).2 ∧
    (((performCow s f).2).heap (((performCow s f).2).current)).data
      = (f ((s.heap (ptrPart s.current)).data)).1 ∧
    ((performCow s f).2).current % 2 = 0 := by
  cases hp : s.pool with
  | nil =>
    have e : performCow s f =
        performCowPublish
          { s with
            heap := hupd s.heap s.nextAddr (Node.mk ((s.heap (ptrPart s.current)).data) 0)
            nextAddr := s.nextAddr + 2 }
          s.nextAddr f := by
      unfold performCow
      rw [hp]
    rw [e]
    refine ⟨?_, ?_, ?_⟩
    · simp [performCowPublish_fst]
    · simp [performCowPublish_heap_q]
    · simp only [performCowPublish_current]
      omega
  | cons q rest =>
    have hq : 2 ∣ q := hpool q (by rw [hp]; exact List.mem_cons_self q rest)
    have e : performCow s f =
        performCowPublish
          { s with
            pool := rest
            heap := hupd s.heap q (Node.mk ((s.heap (ptrPart s.current)).data) 0) }
          q f := by
      unfold performCow
      rw [hp]
    rw [e]
    refine ⟨?_, ?_, ?_⟩
    · simp [performCowPublish_fst]
    · simp [performCowPublish_heap_q]
    · simp only [performCowPublish_current]
      omega

/-- C2: for every cell state with sane storage addresses and every closure,
write_cow returns exactly the value the closure returned, publishes as
current a node whose data is the closure applied to (a clone of) the data
that was current at the start of the call, and a subsequent read observes
that value. -/
theorem c2_write_cow_publishes (s : CellState T) (f : T → T × R) (ha : Aligned s) :
    (writeCow s f).1 = (f ((s.heap (ptrPart s.current)).data)).2 ∧
    (((writeCow s f).2).heap (ptrPart (((writeCow s f).2).current))).data
      = (f ((s.heap (ptrPart s.current)).data)).1 ∧
    readVal 1 ((writeCow s f).2) = some ((f ((s.heap (ptrPart s.current)).data)).1) := by
  have hpool : ∀ a ∈ (collectGarbage s).pool, 2 ∣ a := by
    intro a hmem
    rcases gcLoop_pool_mem s.heap s.garbage s.pool a hmem with hg | hpl
    · exact ha.2.2 a hg
    · exact ha.2.1 a hpl
  obtain ⟨h1, h2, h3⟩ := performCow_spec (collectGarbage s) f ha.1 hpool
  have he : ptrPart (((writeCow s f).2).current) = ((writeCow s f).2).current :=
    ptrPart_of_even h3
  refine ⟨h1, ?_, ?_⟩
  · rw [he]
    exact h2
  · rw [readVal_succ _ (by exact h3), he]
    exact congrArg some h2

/-- Witness for C2: write_cow on a fresh cell holding 5, with a closure that
increments and reports the old value. -/
theorem c2_write_cow_witness :
    Aligned (newCell (5 : Nat)) ∧
    ((writeCow (newCell (5 : Nat)) (fun v => (v + 1, v))).1 =
        ((fun (v : Nat) => (v + 1, v)) (((newCell (5 : Nat)).heap
          (ptrPart (newCell (5 : Nat)).current)).data)).2 ∧
      (((writeCow (newCell (5 : Nat)) (fun v => (v + 1, v))).2).heap
          (ptrPart (((writeCow (newCell (5 : Nat)) (fun v => (v + 1, v))).2).current))).data
        = ((fun (v : Nat) => (v + 1, v)) (((newCell (5 : Nat)).heap
          (ptrPart (newCell (5 : Nat)).current)).data)).1 ∧
      readVal 1 ((writeCow (newCell (5 : Nat)) (fun v => (v + 1, v))).2) =
        some (((fun (v : Nat) => (v + 1, v)) (((newCell (5 : Nat)).heap
          (ptrPart (newCell (5 : Nat)).current)).data)).1)) :=
  ⟨⟨by decide, by decide, by decide⟩,
    c2_write_cow_publishes (newCell (5 : Nat)) (fun v => (v + 1, v))
      ⟨by decide, by decide, by decide⟩⟩

theorem performCow_eq_nil (s : CellState T) (f : T → T × R) (hp : s.pool = []) :
    performCow s f =
      performCowPublish
        { s with
          heap := hupd s.heap s.nextAddr (Node.mk ((s.heap (ptrPart s.current)).data) 0)
          nextAddr := s.nextAddr + 2 }
        s.nextAddr f := by
  unfold performCow
  rw [hp]

theorem performCow_eq_cons (s : CellState T) (f : T → T × R) (q : Nat) (rest : List Nat)
    (hp : s.pool = q :: rest) :
    performCow s f =
      performCowPublish
        { s with
          pool := rest
          heap := hupd s.heap q (Node.mk ((s.heap (ptrPart s.current)).data) 0) }
        q f := by
  unfold performCow
  rw [hp]

/-- perform_cow writes only into the node storage it recycles or
allocates: every other node keeps its contents. -/
theorem performCow_heap_preserved (s : CellState T) (f : T → T × R) (a : Nat)
    (hpl : a ∉ s.pool) (hnx : a ≠ s.nextAddr) :
    (performCow s f).2.heap a = s.heap a := by
  cases hp : s.pool with
  | nil =>
    rw [performCow_eq_nil s f hp, performCowPublish_heap_ne _ _ _ _ hnx]
    exact hupd_ne _ _ hnx
  | cons q rest =>
    have hq : a ≠ q := by
      intro e
      exact hpl (by rw [hp, e]; exact List.mem_cons_self q rest)
    rw [performCow_eq_cons s f q rest hp, performCowPublish_heap_ne _ _ _ _ hq]
    exact hupd_ne _ _ hq

theorem tryWrite_congested (s : CellState T) (k : Nat)
    (h : rcCount (((collectGarbage s).heap (ptrPart (collectGarbage s).current)).rc) ≠ 0) :
    tryWrite s k = WriteRes.congested (collectGarbage s) := by
  simp only [tryWrite]
  rw [if_neg h]

/-- C3: when a Ref from a successful try_read is still alive, try_write
returns the Congested outcome; perform_cow on that congested state with a
mutation closure makes a fresh read yield the closure-produced value, while
the still-held Ref continues to yield the old value. -/
theorem c3_held_ref_congested_cow (s : CellState T) (f : T → T × R)
    (hcur : s.current % 2 = 0)
    (hrc : (s.heap s.current).rc + 1 < WAITING)
    (hgar : s.current ∉ s.garbage)
    (hpool : s.current ∉ s.pool)
    (hnext : s.current ≠ s.nextAddr)
    (ha : Aligned s) :
    tryReadLoop 1 s = ReadOutcome.success s.current (retainAt s s.current) ∧
    (tryWrite (retainAt s s.current) 0).isInPlace = false ∧
    (performCow ((tryWrite (retainAt s s.current) 0).state) f).1
      = (f ((s.heap s.current).data)).2 ∧
    readVal 1 (performCow ((tryWrite (retainAt s s.current) 0).state) f).2
      = some ((f ((s.heap s.current).data)).1) ∧
    (((performCow ((tryWrite (retainAt s s.current) 0).state) f).2).heap s.current).data
      = (s.heap s.current).data := by
  have hrc2 : (s.heap s.current).rc + 1 < 2147483648 := hrc
  have hne : rcCount (((collectGarbage (retainAt s s.current)).heap
      (ptrPart (collectGarbage (retainAt s s.current)).current)).rc) ≠ 0 := by
    show rcCount (((retainAt s s.current).heap (ptrPart s.current)).rc) ≠ 0
    rw [ptrPart_of_even hcur, retainAt_heap_same]
    show (((s.heap s.current).rc + 1) % W32) % WAITING ≠ 0
    unfold W32 WAITING
    omega
  have htw : tryWrite (retainAt s s.current) 0 =
      WriteRes.congested (collectGarbage (retainAt s s.current)) :=
    tryWrite_congested _ 0 hne
  have hstate : (tryWrite (retainAt s s.current) 0).state =
      collectGarbage (retainAt s s.current) := by
    rw [htw]
    rfl
  have hpool2 : ∀ a ∈ (collectGarbage (retainAt s s.current)).pool, 2 ∣ a := by
    intro a hmem
    rcases gcLoop_pool_mem (retainAt s s.current).heap s.garbage s.pool a hmem with hg | hpl
    · exact ha.2.2 a hg
    · exact ha.2.1 a hpl
  obtain ⟨h1, h2, h3⟩ :=
    performCow_spec (collectGarbage (retainAt s s.current)) f ha.1 hpool2
  have hold : ((collectGarbage (retainAt s s.current)).heap
      (ptrPart (collectGarbage (retainAt s s.current)).current)).data
      = (s.heap s.current).data := by
    show ((retainAt s s.current).heap (ptrPart s.current)).data = _
    rw [ptrPart_of_even hcur, retainAt_heap_same]
  refine ⟨?_, ?_, ?_, ?_, ?_⟩
  · have h0 := tryReadLoop_success s hcur
    rw [ptrPart_of_even hcur] at h0
    exact h0
  · rw [htw]
    rfl
  · rw [hstate, h1, hold]
  · rw [hstate, readVal_succ _ (by exact h3), ptrPart_of_even h3, h2, hold]
  · rw [hstate, performCow_heap_preserved _ _ _ ?hpl ?hnx, cg_heap, retainAt_heap_same]
    case hpl =>
      intro hmem
      rcases gcLoop_pool_mem (retainAt s s.current).heap s.garbage s.pool
          s.current hmem with hg | hpl
      · exact hgar hg
      · exact hpool hpl
    case hnx => exact hnext

/-- Witness for C3: cell built with 10, a Ref held, try_write congested,
perform_cow setting 20 while the Ref still reads 10. -/
theorem c3_held_ref_witness :
    ((newCell (10 : Nat)).current % 2 = 0 ∧
      ((newCell (10 : Nat)).heap (newCell (10 : Nat)).current).rc + 1 < WAITING ∧
      (newCell (10 : Nat)).current ∉ (newCell (10 : Nat)).garbage ∧
      (newCell (10 : Nat)).current ∉ (newCell (10 : Nat)).pool ∧
      (newCell (10 : Nat)).current ≠ (newCell (10 : Nat)).nextAddr ∧
      Aligned (newCell (10 : Nat))) ∧
    (tryReadLoop 1 (newCell (10 : Nat)) =
        ReadOutcome.success (newCell (10 : Nat)).current
          (retainAt (newCell (10 : Nat)) (newCell (10 : Nat)).current) ∧
      (tryWrite (retainAt (newCell (10 : Nat)) (newCell (10 : Nat)).current) 0).isInPlace
        = false ∧
      (performCow ((tryWrite (retainAt (newCell (10 : Nat))
          (newCell (10 : Nat)).current) 0).state) (fun v => ((20 : Nat), v))).1
        = ((fun v => ((20 : Nat), v))
            (((newCell (10 : Nat)).heap (newCell (10 : Nat)).current).data)).2 ∧
      readVal 1 (performCow ((tryWrite (retainAt (newCell (10 : Nat))
          (newCell (10 : Nat)).current) 0).state) (fun v => ((20 : Nat), v))).2
        = some (((fun v => ((20 : Nat), v))
            (((newCell (10 : Nat)).heap (newCell (10 : Nat)).current).data)).1) ∧
      (((performCow ((tryWrite (retainAt (newCell (10 : Nat))
          (newCell (10 : Nat)).current) 0).state) (fun v => ((20 : Nat), v))).2).heap
            (newCell (10 : Nat)).current).data
        = ((newCell (10 : Nat)).heap (newCell (10 : Nat)).current).data) :=
  ⟨⟨by decide, by decide, by decide, by decide, by decide, by decide, by decide, by decide⟩,
    c3_held_ref_congested_cow (newCell (10 : Nat)) (fun v => ((20 : Nat), v))
      (by decide) (by decide) (by decide) (by decide) (by decide)
      ⟨by decide, by decide, by decide⟩⟩

theorem retainN_rc_pos (p : Nat) :
    ∀ (k : Nat) (s : CellState T), 1 ≤ k →
      ((retainN p k s).heap p).rc = ((s.heap p).rc + k) % W32 := by
  intro k
  induction k with
  | zero =>
    intro s h
    omega
  | succ k ih =>
    intro s hk
    rcases Nat.eq_zero_or_pos k with hk0 | hkpos
    · subst hk0
      show ((retainAt s p).heap p).rc = _
      rw [retainAt_heap_same]
      rfl
    · have step := ih (retainAt s p) hkpos
      have hmid : ((retainAt s p).heap p).rc = rcRetain (s.heap p).rc := by
        rw [retainAt_heap_same]
      rw [show retainN p (k + 1) s = retainN p k (retainAt s p) from rfl, step, hmid]
      show (((s.heap p).rc + 1) % 4294967296 + k) % 4294967296
        = ((s.heap p).rc + (k + 1)) % 4294967296
      omega

/-- try_write when the first count check passes but the second fails: the
rollback branch is taken. -/
theorem tryWrite_rollback (s : CellState T) (k : Nat)
    (h0 : rcCount (((collectGarbage s).heap (ptrPart (collectGarbage s).current)).rc) = 0)
    (hne : rcCount ((retainN (ptrPart (collectGarbage s).current) k
        { collectGarbage s with current := lockWord (collectGarbage s).current }).heap
        (ptrPart (collectGarbage s).current)).rc ≠ 0) :
    tryWrite s k = WriteRes.congested (advanceNotifier
      { retainN (ptrPart (collectGarbage s).current) k
          { collectGarbage s with current := lockWord (collectGarbage s).current }
        with current := (collectGarbage s).current }) := by
  simp only [tryWrite]
  rw [if_pos h0, if_neg hne]

/-- C6: a failed in-place attempt (nonzero recount after the lock swap)
returns Congested, release-stores the originally loaded word back into
current so the current word is unchanged, and advances the notifier. -/
theorem c6_failed_inplace_rollback (s : CellState T) (k : Nat)
    (hk : 1 ≤ k) (hk31 : k < WAITING)
    (h0 : rcCount ((s.heap (ptrPart s.current)).rc) = 0)
    (hlt : (s.heap (ptrPart s.current)).rc < W32) :
    (tryWrite s k).isInPlace = false ∧
    ((tryWrite s k).state).current = s.current ∧
    ((tryWrite s k).state).notifier = (s.notifier + 1) % W32 := by
  have h0x : rcCount (((collectGarbage s).heap (ptrPart (collectGarbage s).current)).rc)
      = 0 := h0
  have hne : rcCount ((retainN (ptrPart (collectGarbage s).current) k
      { collectGarbage s with current := lockWord (collectGarbage s).current }).heap
      (ptrPart (collectGarbage s).current)).rc ≠ 0 := by
    rw [retainN_rc_pos _ _ _ hk]
    have hb : (({ collectGarbage s with current := lockWord (collectGarbage s).current }).heap
        (ptrPart (collectGarbage s).current)).rc = (s.heap (ptrPart s.current)).rc := rfl
    rw [hb]
    have h00 : (s.heap (ptrPart s.current)).rc % 2147483648 = 0 := h0
    have hlt2 : (s.heap (ptrPart s.current)).rc < 4294967296 := hlt
    have hk2 : k < 2147483648 := hk31
    show ¬ ((s.heap (ptrPart s.current)).rc + k) % 4294967296 % 2147483648 = 0
    omega
  rw [tryWrite_rollback s k h0x hne]
  refine ⟨rfl, rfl, ?_⟩
  have hn := (retainN_fields (ptrPart (collectGarbage s).current) k
      { collectGarbage s with current := lockWord (collectGarbage s).current }).2.2.2.1
  show ((retainN (ptrPart (collectGarbage s).current) k
      { collectGarbage s with current := lockWord (collectGarbage s).current }).notifier + 1)
      % W32 = (s.notifier + 1) % W32
  rw [hn]
  rfl

/-- Witness for C6: one reader retain lands inside the race window of
try_write on a fresh cell; the outcome is Congested with the current word
unchanged and the notifier advanced. -/
theorem c6_failed_inplace_witness :
    (1 ≤ 1 ∧ 1 < WAITING ∧
      rcCount (((newCell (0 : Nat)).heap (ptrPart (newCell (0 : Nat)).current)).rc) = 0 ∧
      ((newCell (0 : Nat)).heap (ptrPart (newCell (0 : Nat)).current)).rc < W32) ∧
    ((tryWrite (newCell (0 : Nat)) 1).isInPlace = false ∧
      ((tryWrite (newCell (0 : Nat)) 1).state).current = (newCell (0 : Nat)).current ∧
      ((tryWrite (newCell (0 : Nat)) 1).state).notifier
        = ((newCell (0 : Nat)).notifier + 1) % W32) :=
  ⟨⟨by decide, by decide, by decide, by decide⟩,
    c6_failed_inplace_rollback (newCell (0 : Nat)) 1 (by decide) (by decide)
      (by decide) (by decide)⟩

theorem envReleases_bit :
    ∀ (n w : Nat), w < W32 →
      waitingBit (envReleases n w) = waitingBit w ∧ envReleases n w < W32 := by
  intro n
  induction n with
  | zero => intro w h; exact ⟨rfl, h⟩
  | succ n ih =>
    intro w h
    by_cases hc : rcCount w = 0
    · simp only [envReleases, if_pos hc]
      exact ⟨trivial, h⟩
    · simp only [envReleases, if_neg hc]
      have hcc : w % 2147483648 ≠ 0 := hc
      have h2 : w < 4294967296 := h
      have hrel : rcRelease w = w - 1 := by
        show (w + (4294967296 - 1)) % 4294967296 = w - 1
        omega
      have hdiv : (w - 1) / 2147483648 % 2 = w / 2147483648 % 2 := by omega
      have hb : waitingBit (w - 1) = waitingBit w := by
        unfold waitingBit
        rw [show (w - 1) / WAITING % 2 = w / WAITING % 2 from hdiv]
      rw [hrel]
      obtain ⟨ih1, ih2⟩ := ih (w - 1) (show w - 1 < W32 by
        show w - 1 < 4294967296
        omega)
      exact ⟨ih1.trans hb, ih2⟩

theorem setWaiting_bit (w : Nat) (h : w < W32) : waitingBit (setWaiting w) = true := by
  unfold setWaiting
  by_cases hb : waitingBit w = true
  · rw [if_pos hb]
    exact hb
  · rw [if_neg hb]
    simp only [waitingBit, decide_eq_true_eq] at hb ⊢
    have h2 : w < 4294967296 := h
    show (w + 2147483648) / 2147483648 % 2 = 1
    have hx : ¬ w / 2147483648 % 2 = 1 := hb
    omega

theorem setWaiting_lt (w : Nat) (h : w < W32) : setWaiting w < W32 := by
  unfold setWaiting
  by_cases hb : waitingBit w = true
  · rw [if_pos hb]
    exact h
  · rw [if_neg hb]
    simp only [waitingBit, decide_eq_true_eq] at hb
    have h2 : w < 4294967296 := h
    have hx : ¬ w / 2147483648 % 2 = 1 := hb
    show w + 2147483648 < 4294967296
    omega

/-- Once the waiting bit is set, wait_until_zero never clears it: whatever
word it returns still carries the bit; and whenever it observes a nonzero
count it sets the bit, which then survives its return. -/
theorem waitUntilZero_bit :
    ∀ (fuel : Nat) (sched : List Nat) (w w1 : Nat), w < W32 →
      waitUntilZero fuel sched w = some w1 →
      ((waitingBit w = true → waitingBit w1 = true) ∧ w1 < W32 ∧
        (rcCount (envReleases (sched.headD 0) w) ≠ 0 → waitingBit w1 = true)) := by
  intro fuel
  induction fuel with
  | zero =>
    intro sched w w1 h hw
    simp [waitUntilZero] at hw
  | succ fuel ih =>
    intro sched w w1 h hw
    simp only [waitUntilZero] at hw
    obtain ⟨he1, he2⟩ := envReleases_bit (sched.headD 0) w h
    by_cases hc : rcCount (envReleases (sched.headD 0) w) = 0
    · rw [if_pos hc] at hw
      cases hw
      refine ⟨fun hb => ?_, he2, fun hcc => absurd hc hcc⟩
      rw [he1]
      exact hb
    · rw [if_neg hc] at hw
      have hsb : waitingBit (setWaiting (envReleases (sched.headD 0) w)) = true :=
        setWaiting_bit _ he2
      have hsl : setWaiting (envReleases (sched.headD 0) w) < W32 :=
        setWaiting_lt _ he2
      by_cases hc2 : rcCount (setWaiting (envReleases (sched.headD 0) w)) = 0
      · rw [if_pos hc2] at hw
        cases hw
        exact ⟨fun _ => hsb, hsl, fun _ => hsb⟩
      · rw [if_neg hc2] at hw
        obtain ⟨p1, p2, _⟩ := ih sched.tail _ w1 hsl hw
        exact ⟨fun _ => p1 hsb, p2, fun _ => p1 hsb⟩

/-- C9 counterexample: a writer enters wait_until_zero with one outstanding
reader (word 1, waiting bit clear); the reader releases while the writer
waits; wait_until_zero returns the word WAITING, whose count is zero but
whose waiting bit is still set.  This contradicts the claim that the
waiting bit is clear in every state where no writer is executing
wait_until_zero, in particular immediately after it has returned. -/
theorem c9_waiting_bit_counterexample :
    waitUntilZero 2 [0, 1] 1 = some WAITING ∧
    waitingBit WAITING = true ∧ rcCount WAITING = 0 := by
  refine ⟨by decide, by decide, by decide⟩

/-- C9 amended: release performs a wake exactly when the pre-decrement word
equals 1 with the waiting bit set; but the waiting bit is not cleared by
wait_until_zero: any bit that is set when wait_until_zero starts, or that it
sets after observing a nonzero count, is still set in the word it leaves
behind when it returns (the bit is cleared only by reset when the node is
recycled). -/
theorem c9_waiting_bit_persists :
    (∀ w : Nat, w < W32 →
      (releaseWake w = true ↔ (rcCount w = 1 ∧ waitingBit w = true))) ∧
    (∀ (fuel : Nat) (sched : List Nat) (w w1 : Nat), w < W32 →
      waitUntilZero fuel sched w = some w1 →
      (waitingBit w = true → waitingBit w1 = true)) ∧
    (∀ (fuel : Nat) (sched : List Nat) (w w1 : Nat), w < W32 →
      waitUntilZero (fuel + 1) sched w = some w1 →
      rcCount (envReleases (sched.headD 0) w) ≠ 0 → waitingBit w1 = true) := by
  refine ⟨?_, ?_, ?_⟩
  · intro w h
    constructor
    · intro he
      have he2 : w = 2147483648 + 1 := of_decide_eq_true he
      subst he2
      exact ⟨by decide, by decide⟩
    · rintro ⟨h1, h2⟩
      have ha : w % 2147483648 = 1 := h1
      have hb : w / 2147483648 % 2 = 1 := of_decide_eq_true h2
      have hc : w < 4294967296 := h
      show decide (w = WAITING + 1) = true
      rw [decide_eq_true_eq]
      show w = 2147483648 + 1
      omega
  · intro fuel sched w w1 h hw
    exact (waitUntilZero_bit fuel sched w w1 h hw).1
  · intro fuel sched w w1 h hw
    exact (waitUntilZero_bit (fuel + 1) sched w w1 h hw).2.2

/-- Witness for the amended C9 at the word 1 with the waiting bit set: the
release of the last reader wakes the waiter. -/
theorem c9_waiting_bit_witness :
    (WAITING + 1 < W32) ∧
    (releaseWake (WAITING + 1) = true ↔
      (rcCount (WAITING + 1) = 1 ∧ waitingBit (WAITING + 1) = true)) :=
  ⟨by decide, c9_waiting_bit_persists.1 (WAITING + 1) (by decide)⟩

/-- C10: the alignment assertion of RetroCell::new always succeeds, because
Node contains a CachePadded field of alignment 64, so the alignment of Node
is at least 64 and in particular at least 2, for every alignment of T. -/
theorem c10_node_alignment (alignT : Nat) :
    2 ≤ nodeAlign alignT ∧ 64 ≤ nodeAlign alignT := by
  unfold nodeAlign cachePaddedAlign atomicU32Align
  exact ⟨le_trans (by norm_num) (le_max_right alignT (max 64 4)),
    le_trans (by norm_num) (le_max_right alignT (max 64 4))⟩

/-- C1: on a quiescent cell built with value v0, a read yields v0; after
that Ref is dropped, try_write returns the InPlace outcome; writing w
through the mutable dereference of the guard and dropping the guard makes
every subsequent read yield w (shown for the next read and for the read
after it, reads do not change the published data). -/
theorem c1_sequential_roundtrip {T : Type} (v0 w : T) :
    readVal 1 (newCell v0) = some v0 ∧
    (tryWrite (releaseAt (retainAt (newCell v0) 2) 2) 0).isInPlace = true ∧
    readVal 1
      (guardDrop (tryWrite (releaseAt (retainAt (newCell v0) 2) 2) 0).lockedVal
        (guardSet (tryWrite (releaseAt (retainAt (newCell v0) 2) 2) 0).lockedVal w
          (tryWrite (releaseAt (retainAt (newCell v0) 2) 2) 0).state)) = some w ∧
    readVal 1
      (retainAt
        (guardDrop (tryWrite (releaseAt (retainAt (newCell v0) 2) 2) 0).lockedVal
          (guardSet (tryWrite (releaseAt (retainAt (newCell v0) 2) 2) 0).lockedVal w
            (tryWrite (releaseAt (retainAt (newCell v0) 2) 2) 0).state)) 2) = some w := by
  have hrc : rcCount (((releaseAt (retainAt (newCell v0) 2) 2).heap
      (ptrPart (releaseAt (retainAt (newCell v0) 2) 2).current)).rc) = 0 := by
    have hp : ptrPart (releaseAt (retainAt (newCell v0) 2) 2).current = 2 := by
      simp [releaseAt, retainAt, newCell, ptrPart]
    have hh : ((releaseAt (retainAt (newCell v0) 2) 2).heap 2).rc
        = rcRelease (rcRetain 0) := by
      simp [releaseAt, retainAt, newCell, hupd]
    rw [hp, hh]
    decide
  have hw : tryWrite (releaseAt (retainAt (newCell v0) 2) 2) 0 =
      WriteRes.inPlace 3 { releaseAt (retainAt (newCell v0) 2) 2 with current := 3 } := by
    rw [tryWrite_quiescent _ hrc,
      collectGarbage_nil (show (releaseAt (retainAt (newCell v0) 2) 2).garbage = [] from rfl)]
    have hc : lockWord (releaseAt (retainAt (newCell v0) 2) 2).current = 3 := by
      simp [releaseAt, retainAt, newCell, lockWord]
    rw [hc]
  refine ⟨?_, ?_, ?_, ?_⟩
  · rw [readVal_succ (newCell v0) (by simp [newCell])]
    simp [newCell, ptrPart]
  · rw [hw]
    rfl
  · rw [hw]
    simp only [WriteRes.lockedVal, WriteRes.state]
    rw [readVal_guardDrop, guardSet_data]
  · rw [hw]
    simp only [WriteRes.lockedVal, WriteRes.state]
    rw [readVal_retainAt_eq _ 2 (by exact ptrPart_even 3)]
    rw [readVal_guardDrop, guardSet_data]

/-- C5: construct with 10, write_cow to 20 (previous becomes the node
holding 10), then write_in_place and set 30 while the guard is held.  While
the guard is held, try_read returns Blocked, read_retro on the blocked
reader returns Some of a Ref yielding 10, and after the guard drop the wait
of the blocked reader returns a Ref yielding 30. -/
theorem c5_blocked_retro_scenario :
    (writeInPlace 1 []
        (writeCow (newCell (10 : Nat)) (fun _ => ((20 : Nat), Unit.unit))).2).map
        (fun g =>
          (readBlocked 1 (guardSet g.1 30 g.2),
            retroVal (guardSet g.1 30 g.2),
            waitVal 1 (guardDrop g.1 (readRetro (guardSet g.1 30 g.2)).2))) =
      some (true, some 10, some 30) := by
  decide

/-- C8: read_retro (the bodies of Reader::read_retro and
BlockedReader::read_retro are identical) returns none exactly when previous
is null; on a freshly constructed cell previous is null and read_retro
returns none; when previous is non-null, read_retro retains the referenced
node and returns Some of a Ref to exactly that node. -/
theorem c8_read_retro_none_iff_null (s : CellState T) (v : T) :
    ((readRetro s).1 = none ↔ s.previous = 0) ∧
    (newCell v).previous = 0 ∧
    (readRetro (newCell v)).1 = none ∧
    (s.previous ≠ 0 →
      (readRetro s).1 = some s.previous ∧
      ((readRetro s).2.heap s.previous).rc = rcRetain ((s.heap s.previous).rc) ∧
      ((readRetro s).2.heap s.previous).data = (s.heap s.previous).data) := by
  refine ⟨?_, rfl, rfl, fun h => ?_⟩
  · unfold readRetro
    by_cases h : s.previous = 0 <;> simp [h]
  · unfold readRetro
    simp [h]

/-- Witness for C8 at a state with a non-null previous pointer. -/
theorem c8_read_retro_witness :
    (({ newCell (5 : Nat) with previous := 2 } : CellState Nat).previous ≠ 0) ∧
    ((readRetro ({ newCell (5 : Nat) with previous := 2 } : CellState Nat)).1 =
        some ({ newCell (5 : Nat) with previous := 2 } : CellState Nat).previous ∧
      ((readRetro ({ newCell (5 : Nat) with previous := 2 } : CellState Nat)).2.heap
            ({ newCell (5 : Nat) with previous := 2 } : CellState Nat).previous).rc =
        rcRetain ((({ newCell (5 : Nat) with previous := 2 } : CellState Nat).heap
            ({ newCell (5 : Nat) with previous := 2 } : CellState Nat).previous).rc) ∧
      ((readRetro ({ newCell (5 : Nat) with previous := 2 } : CellState Nat)).2.heap
            ({ newCell (5 : Nat) with previous := 2 } : CellState Nat).previous).data =
        (({ newCell (5 : Nat) with previous := 2 } : CellState Nat).heap
            ({ newCell (5 : Nat) with previous := 2 } : CellState Nat).previous).data) :=
  ⟨by decide,
    (c8_read_retro_none_iff_null ({ newCell (5 : Nat) with previous := 2 }) 5).2.2.2
      (by decide)⟩

end Retro
